import Mathlib

/-!
Shallow embedding of `src/vgc/view_controller_fast.py` (class `ViewController`):
the geodesy conversions, the attitude rotation engine, the input setters with
their clamping rules, and one iteration of the `main` control loop.

Python floats are modelled as real numbers.  The trigonometric helpers of
`vgc.taylor_math_functions` (imported as `tf` in the source) are repository
code that is not available here; following the specification, which describes
them as the standard trigonometric functions (sin, cos, tan, arctan, arccos),
they are modelled by the corresponding functions on `ℝ`.  `numpy.arctan2` is
modelled by the mathematical two-argument arctangent with `atan2 0 0 = 0`,
matching numpy's documented behaviour.  The Python float modulo `% 360` is
modelled by `mod360`.
-/

noncomputable section

namespace ViewController

/-- The constant `DEG_IN_RED` from `__init__`: the source's approximation of
degrees-to-radians (not exactly pi/180). -/
def DEG_IN_RED : ℝ := 0.0174532925

/-- Embedding of `deg2rad`: degrees to radians via the source constant. -/
def deg2rad (degrees : ℝ) : ℝ := DEG_IN_RED * degrees

/-- Embedding of `rad2deg`: radians to degrees via the source constant. -/
def rad2deg (radians : ℝ) : ℝ := radians / DEG_IN_RED

/-- Modelled from the spec: `numpy.arctan2 y x` (missing third-party call in
`coordinate_to_point` and `spherical_to_angular`), the angle of the point
`(x, y)` in `(-pi, pi]`, with `atan2 0 0 = 0`. -/
def atan2 (y x : ℝ) : ℝ :=
  if 0 < x then Real.arctan (y / x)
  else if x < 0 then
    (if 0 ≤ y then Real.arctan (y / x) + Real.pi else Real.arctan (y / x) - Real.pi)
  else
    (if 0 < y then Real.pi / 2 else if y < 0 then -(Real.pi / 2) else 0)

/-- Model of the Python float operation `r % 360` (result in `[0, 360)` for
finite inputs). -/
def mod360 (r : ℝ) : ℝ := r - 360 * ⌊r / 360⌋

/-- Embedding of `earth_radius_at_lat`. -/
def earth_radius_at_lat (lat : ℝ) : ℝ := 6378137 - lat / 90 * 21385

/-- Embedding of `coordinate_to_point`: aim angles (degrees) from origin
`coord1` towards `coord2` at the given height.  `tf.tan`, `tf.arctan` are
spec-modelled as `Real.tan`, `Real.arctan`; `** 0.5` on the nonnegative
sum of squares is `Real.sqrt`. -/
def coordinate_to_point (coord1 coord2 : ℝ × ℝ) (height : ℝ) : ℝ × ℝ :=
  let coord_diff : ℝ × ℝ := (coord2.1 - coord1.1, coord2.2 - coord1.2)
  let x_diff := Real.tan (deg2rad coord_diff.1) * earth_radius_at_lat coord1.2
  let y_diff := Real.tan (deg2rad coord_diff.2) * earth_radius_at_lat coord1.2
  let phi := if x_diff = 0 ∧ y_diff = 0 then 0 else atan2 x_diff y_diff
  let theta_2 := Real.arctan (Real.sqrt (x_diff ^ 2 + y_diff ^ 2) / height)
  (rad2deg theta_2, mod360 (rad2deg phi))

/-- Embedding of `point_to_coordinate`: ground coordinate at the centre of
view, given aim `(theta, phi)` in degrees, the height and the drone
coordinate `(longitude, latitude)`. -/
def point_to_coordinate (theta phi height : ℝ) (d_coord : ℝ × ℝ) : ℝ × ℝ :=
  let p_lat := deg2rad d_coord.2 +
    Real.arctan (height * Real.tan (deg2rad theta) * Real.cos (deg2rad phi) /
      earth_radius_at_lat d_coord.2)
  let p_long := deg2rad d_coord.1 +
    Real.arctan (height * Real.tan (deg2rad theta) * Real.sin (deg2rad phi) /
      earth_radius_at_lat d_coord.2)
  (rad2deg p_long, rad2deg p_lat)

/-- Column vector with three real entries, modelling the 3x1 `numpy.matrix`
used for spherical aim coordinates. -/
structure Vec3 where
  x : ℝ
  y : ℝ
  z : ℝ

/-- A 3x3 real matrix, modelling the `numpy.matrix` values built by
`rotation_matrix`. -/
structure Mat3 where
  a11 : ℝ
  a12 : ℝ
  a13 : ℝ
  a21 : ℝ
  a22 : ℝ
  a23 : ℝ
  a31 : ℝ
  a32 : ℝ
  a33 : ℝ

/-- Matrix product, modelling `numpy.matrix.dot` on 3x3 matrices. -/
def Mat3.mul (m n : Mat3) : Mat3 where
  a11 := m.a11 * n.a11 + m.a12 * n.a21 + m.a13 * n.a31
  a12 := m.a11 * n.a12 + m.a12 * n.a22 + m.a13 * n.a32
  a13 := m.a11 * n.a13 + m.a12 * n.a23 + m.a13 * n.a33
  a21 := m.a21 * n.a11 + m.a22 * n.a21 + m.a23 * n.a31
  a22 := m.a21 * n.a12 + m.a22 * n.a22 + m.a23 * n.a32
  a23 := m.a21 * n.a13 + m.a22 * n.a23 + m.a23 * n.a33
  a31 := m.a31 * n.a11 + m.a32 * n.a21 + m.a33 * n.a31
  a32 := m.a31 * n.a12 + m.a32 * n.a22 + m.a33 * n.a32
  a33 := m.a31 * n.a13 + m.a32 * n.a23 + m.a33 * n.a33

/-- Matrix transpose, modelling `numpy.matrix.transpose`. -/
def Mat3.transpose (m : Mat3) : Mat3 where
  a11 := m.a11
  a12 := m.a21
  a13 := m.a31
  a21 := m.a12
  a22 := m.a22
  a23 := m.a32
  a31 := m.a13
  a32 := m.a23
  a33 := m.a33

/-- Matrix-vector product, modelling `numpy.matrix.dot` applied to a 3x1
column vector. -/
def Mat3.mulVec (m : Mat3) (v : Vec3) : Vec3 where
  x := m.a11 * v.x + m.a12 * v.y + m.a13 * v.z
  y := m.a21 * v.x + m.a22 * v.y + m.a23 * v.z
  z := m.a31 * v.x + m.a32 * v.y + m.a33 * v.z

/-- The 3x3 identity matrix. -/
def Mat3.idMat : Mat3 where
  a11 := 1
  a12 := 0
  a13 := 0
  a21 := 0
  a22 := 1
  a23 := 0
  a31 := 0
  a32 := 0
  a33 := 1

/-- Embedding of `rotation_matrix(roll, yaw, pitch)` (angles in degrees):
`yaw_matrix.dot(pitch_matrix.dot(roll_matrix))`. -/
def rotation_matrix (roll yaw pitch : ℝ) : Mat3 :=
  let roll_rad := deg2rad roll
  let roll_matrix : Mat3 :=
    { a11 := Real.cos roll_rad, a12 := 0, a13 := Real.sin roll_rad
      a21 := 0, a22 := 1, a23 := 0
      a31 := -Real.sin roll_rad, a32 := 0, a33 := Real.cos roll_rad }
  let yaw_rad := deg2rad yaw
  let yaw_matrix : Mat3 :=
    { a11 := Real.cos yaw_rad, a12 := Real.sin yaw_rad, a13 := 0
      a21 := -Real.sin yaw_rad, a22 := Real.cos yaw_rad, a23 := 0
      a31 := 0, a32 := 0, a33 := 1 }
  let pitch_rad := deg2rad pitch
  let pitch_matrix : Mat3 :=
    { a11 := 1, a12 := 0, a13 := 0
      a21 := 0, a22 := Real.cos pitch_rad, a23 := -Real.sin pitch_rad
      a31 := 0, a32 := Real.sin pitch_rad, a33 := Real.cos pitch_rad }
  yaw_matrix.mul (pitch_matrix.mul roll_matrix)

/-- Embedding of `angular_to_spherical`: aim angles in degrees to a unit
vector. -/
def angular_to_spherical (theta phi : ℝ) : Vec3 :=
  let theta_rad := deg2rad theta
  let phi_rad := deg2rad phi
  { x := Real.sin theta_rad * Real.sin phi_rad
    y := Real.sin theta_rad * Real.cos phi_rad
    z := -Real.cos theta_rad }

/-- Embedding of `spherical_to_angular`: a spherical coordinate vector back to
`(theta, phi)` in degrees, `phi` reduced `% 360`. -/
def spherical_to_angular (coord : Vec3) : ℝ × ℝ :=
  let phi := atan2 coord.x coord.y
  let theta := Real.arccos (-coord.z)
  (rad2deg theta, mod360 (rad2deg phi))

/-- The mutable numeric state of a `ViewController` instance (the fields set
in `__init__`, without the threading plumbing).  The extra `captures` field is
a ghost event counter: it counts executions of the target-capture branch of
the main loop (the assignment to `aim_coordinate` guarded by `init_lock_on`)
and is touched nowhere else. -/
structure State where
  d_roll_in : ℝ
  d_pitch_in : ℝ
  d_yaw_in : ℝ
  d_height_in : ℝ
  d_coordinate_in : ℝ × ℝ
  d_roll : ℝ
  d_pitch : ℝ
  d_yaw : ℝ
  d_height : ℝ
  d_coordinate : ℝ × ℝ
  lock_on_in : Bool
  theta_in : ℝ
  phi_in : ℝ
  lock_on : Bool
  theta : ℝ
  phi : ℝ
  init_lock_on : Bool
  autopilot_write : Bool
  server_write : Bool
  aim_coordinate : ℝ × ℝ
  phi_final : ℝ
  theta_final : ℝ
  camera_roll : ℝ
  camera_yaw : ℝ
  camera_pitch : ℝ
  camera_zoom : ℝ
  captures : ℕ

/-- The state built by `__init__` (ghost counter starts at 0). -/
def initState : State where
  d_roll_in := 0
  d_pitch_in := 0
  d_yaw_in := 0
  d_height_in := 1
  d_coordinate_in := (0, 0)
  d_roll := 0
  d_pitch := 0
  d_yaw := 0
  d_height := 1
  d_coordinate := (0, 0)
  lock_on_in := false
  theta_in := 0
  phi_in := 0
  lock_on := false
  theta := 0
  phi := 0
  init_lock_on := false
  autopilot_write := false
  server_write := false
  aim_coordinate := (0, 0)
  phi_final := 0
  theta_final := 0
  camera_roll := 0
  camera_yaw := 0
  camera_pitch := 0
  camera_zoom := 2
  captures := 0

/-- Embedding of the setter `update_autopilot_input(roll, yaw, pitch, height,
lon, lat)` (attitude angles supplied in radians).  When the `autopilot_write`
flag is set on entry the whole body is skipped; otherwise every field is
overwritten except that `d_height_in` is only updated when `height >= 0`. -/
def update_autopilot_input (s : State) (roll yaw pitch height lon lat : ℝ) :
    State :=
  if s.autopilot_write then s
  else
    { s with
      d_roll_in := rad2deg roll
      d_pitch_in := rad2deg pitch
      d_yaw_in := rad2deg yaw
      d_height_in := if 0 ≤ height then height else s.d_height_in
      d_coordinate_in := (lon, lat)
      autopilot_write := false }

/-- Embedding of the setter `update_server_input(theta, phi, lock_on,
zoom_in)`.  When the `server_write` flag is set on entry the whole body is
skipped.  Theta/phi are stored (theta clamped to `[0, 89]`) only when
`lock_on` is false; `init_lock_on` is raised on a rising edge of `lock_on`;
zoom is stored only when it lies in `[2, 50]`. -/
def update_server_input (s : State) (theta phi : ℝ) (lock_on : Bool)
    (zoom_in : ℝ) : State :=
  if s.server_write then s
  else
    let s1 :=
      if !lock_on then
        if 90 ≤ theta then { s with theta_in := 89, phi_in := phi }
        else if theta < 0 then { s with theta_in := 0, phi_in := phi }
        else { s with theta_in := theta, phi_in := phi }
      else s
    let s2 := if lock_on && !s1.lock_on_in then { s1 with init_lock_on := true } else s1
    let s3 := { s2 with lock_on_in := lock_on }
    let s4 := if 2 ≤ zoom_in ∧ zoom_in ≤ 50 then { s3 with camera_zoom := zoom_in } else s3
    { s4 with server_write := false }

/-- Embedding of `adjust_aim(theta, phi)`: compensate the aim for the current
attitude `(s.d_roll, s.d_yaw, s.d_pitch)` using the transpose of the rotation
matrix. -/
def adjust_aim (s : State) (theta phi : ℝ) : ℝ × ℝ :=
  let inverse_rotation_matrix := (rotation_matrix s.d_roll s.d_yaw s.d_pitch).transpose
  let aim_spherical := angular_to_spherical theta phi
  let aim_spherical_adjusted := inverse_rotation_matrix.mulVec aim_spherical
  spherical_to_angular aim_spherical_adjusted

/-- First block of the `main` loop body (source lines 254-259): copy the
published operator inputs into the loop-local fields when the `server_write`
flag is clear (the flag is set and cleared again inside the block, so its net
value is unchanged). -/
def snapshot_server (s : State) : State :=
  if s.server_write then s
  else { s with lock_on := s.lock_on_in, theta := s.theta_in, phi := s.phi_in,
                server_write := false }

/-- Second block of the `main` loop body (source lines 260-267): copy the
published autopilot inputs into the loop-local fields when the
`autopilot_write` flag is clear. -/
def snapshot_autopilot (s : State) : State :=
  if s.autopilot_write then s
  else { s with d_roll := s.d_roll_in, d_pitch := s.d_pitch_in, d_yaw := s.d_yaw_in,
                d_height := s.d_height_in, d_coordinate := s.d_coordinate_in,
                autopilot_write := false }

/-- Third block of the `main` loop body (source lines 269-288): the lock-on
state machine, attitude compensation and derivation of the camera outputs.
The ghost counter `captures` is incremented exactly in the `init_lock_on`
branch that assigns `aim_coordinate`. -/
def aim_stage (s2 : State) : State :=
  if s2.lock_on then
    let s3 :=
      if s2.init_lock_on then
        { s2 with
          aim_coordinate := point_to_coordinate s2.theta s2.phi s2.d_height s2.d_coordinate
          init_lock_on := false
          captures := s2.captures + 1 }
      else s2
    let tp := coordinate_to_point s3.d_coordinate s3.aim_coordinate s3.d_height
    let a := adjust_aim s3 tp.1 tp.2
    { s3 with
      theta_final := a.1
      phi_final := a.2
      camera_pitch := Real.sin (deg2rad a.1)
      camera_yaw := a.2
      camera_roll := -s3.d_roll * Real.cos (deg2rad a.2) - s3.d_pitch * Real.sin (deg2rad a.2) }
  else
    let a := adjust_aim s2 s2.theta s2.phi
    { s2 with
      theta_final := a.1
      phi_final := a.2
      camera_pitch := Real.sin (deg2rad a.1)
      camera_yaw := a.2
      camera_roll := -s2.d_roll * Real.cos (deg2rad a.2) - s2.d_pitch * Real.sin (deg2rad a.2) }

/-- Embedding of one iteration of the `while True` body of `main` (the
compute-only mode: the `pipeline.set_cropping` emission performs no state
change): the two input snapshots followed by the aim computation. -/
def cycle (s : State) : State :=
  aim_stage (snapshot_autopilot (snapshot_server s))

/-! Helper lemmas about the modelling primitives `mod360` and `atan2`. -/

theorem mod360_eq_self {r : ℝ} (h0 : 0 ≤ r) (h1 : r < 360) : mod360 r = r := by
  have hfl : ⌊r / 360⌋ = 0 := by
    rw [Int.floor_eq_zero_iff]
    refine ⟨by positivity, ?_⟩
    rw [div_lt_one (by norm_num : (0:ℝ) < 360)]
    exact h1
  simp [mod360, hfl]

theorem mod360_of_neg {r : ℝ} (h0 : -360 ≤ r) (h1 : r < 0) : mod360 r = r + 360 := by
  have hfl : ⌊r / 360⌋ = -1 := by
    rw [Int.floor_eq_iff]
    constructor
    · push_cast
      rw [le_div_iff₀ (by norm_num : (0:ℝ) < 360)]
      linarith
    · push_cast
      rw [div_lt_iff₀ (by norm_num : (0:ℝ) < 360)]
      linarith
  rw [mod360, hfl]
  push_cast
  ring

theorem atan2_zero_zero : atan2 0 0 = 0 := by
  simp [atan2]

theorem atan2_pos_smul {k : ℝ} (hk : 0 < k) (y x : ℝ) :
    atan2 (k * y) (k * x) = atan2 y x := by
  unfold atan2
  rw [mul_div_mul_left y x hk.ne']
  have hposx : 0 < k * x ↔ 0 < x := mul_pos_iff_of_pos_left hk
  have hnny : 0 ≤ k * y ↔ 0 ≤ y := mul_nonneg_iff_of_pos_left hk
  have hneg : k * x < 0 ↔ x < 0 := by
    constructor
    · intro h
      by_contra hc
      push_neg at hc
      exact absurd (mul_nonneg hk.le hc) (not_le.mpr h)
    · exact fun h => mul_neg_of_pos_of_neg hk h
  have hposy : 0 < k * y ↔ 0 < y := mul_pos_iff_of_pos_left hk
  have hnegy : k * y < 0 ↔ y < 0 := by
    constructor
    · intro h
      by_contra hc
      push_neg at hc
      exact absurd (mul_nonneg hk.le hc) (not_le.mpr h)
    · exact fun h => mul_neg_of_pos_of_neg hk h
  simp only [hposx, hnny, hneg, hposy, hnegy]

theorem atan2_sin_cos {t : ℝ} (h1 : -Real.pi < t) (h2 : t ≤ Real.pi) :
    atan2 (Real.sin t) (Real.cos t) = t := by
  have hpi : (0:ℝ) < Real.pi := Real.pi_pos
  rcases lt_trichotomy t (Real.pi / 2) with hlt | heq | hgt
  · rcases lt_trichotomy t (-(Real.pi / 2)) with hlt2 | heq2 | hgt2
    · -- t in (-pi, -pi/2): cos t < 0, sin t < 0
      have hcos : Real.cos t < 0 := by
        have : Real.cos (-t) < 0 :=
          Real.cos_neg_of_pi_div_two_lt_of_lt (by linarith) (by linarith)
        rwa [Real.cos_neg] at this
      have hsin : Real.sin t < 0 := by
        have : 0 < Real.sin (-t) := Real.sin_pos_of_pos_of_lt_pi (by linarith) (by linarith)
        rw [Real.sin_neg] at this
        linarith
      rw [atan2, if_neg (by linarith), if_pos hcos, if_neg (not_le.mpr hsin)]
      rw [← Real.tan_eq_sin_div_cos]
      have htan : Real.tan t = Real.tan (t + Real.pi) := (Real.tan_periodic t).symm
      rw [htan, Real.arctan_tan (by linarith) (by linarith)]
      ring
    · -- t = -pi/2
      subst heq2
      rw [atan2, Real.cos_neg, Real.cos_pi_div_two, Real.sin_neg, Real.sin_pi_div_two]
      norm_num [hpi.le]
    · -- t in (-pi/2, pi/2): cos t > 0
      have hcos : 0 < Real.cos t := Real.cos_pos_of_mem_Ioo ⟨hgt2, hlt⟩
      rw [atan2, if_pos hcos, ← Real.tan_eq_sin_div_cos, Real.arctan_tan hgt2 hlt]
  · -- t = pi/2
    subst heq
    rw [atan2, Real.cos_pi_div_two, Real.sin_pi_div_two]
    norm_num
  · -- t in (pi/2, pi]: cos t < 0, sin t >= 0
    have hcos : Real.cos t < 0 :=
      Real.cos_neg_of_pi_div_two_lt_of_lt hgt (by linarith)
    have hsin : 0 ≤ Real.sin t := Real.sin_nonneg_of_nonneg_of_le_pi (by linarith) h2
    rw [atan2, if_neg (by linarith), if_pos hcos, if_pos hsin]
    rw [← Real.tan_eq_sin_div_cos]
    have htan : Real.tan t = Real.tan (t - Real.pi) := by
      have h := Real.tan_periodic (t - Real.pi)
      rwa [sub_add_cancel] at h
    rw [htan, Real.arctan_tan (by linarith) (by linarith)]
    ring

/-! Characterization lemmas for the setters. -/

theorem camera_zoom_update_server_input (s : State) (theta phi : ℝ) (lock_on : Bool)
    (zoom_in : ℝ) :
    (update_server_input s theta phi lock_on zoom_in).camera_zoom =
      if s.server_write then s.camera_zoom
      else if 2 ≤ zoom_in ∧ zoom_in ≤ 50 then zoom_in else s.camera_zoom := by
  unfold update_server_input
  cases hsw : s.server_write <;> cases lock_on <;> simp <;> split_ifs <;> rfl

theorem server_write_update_server_input (s : State) (theta phi : ℝ) (lock_on : Bool)
    (zoom_in : ℝ) :
    (update_server_input s theta phi lock_on zoom_in).server_write = s.server_write := by
  unfold update_server_input
  cases hsw : s.server_write <;> cases lock_on <;> simp [hsw]

/-- Arguments of one `update_server_input` call, for reasoning about call
sequences. -/
structure ServerCall where
  theta : ℝ
  phi : ℝ
  lock_on : Bool
  zoom_in : ℝ

/-- Fold a list of operator publishes over a state. -/
def applyServerCalls (s : State) (calls : List ServerCall) : State :=
  calls.foldl (fun t c => update_server_input t c.theta c.phi c.lock_on c.zoom_in) s

theorem applyServerCalls_zoom_mem (calls : List ServerCall) (s : State)
    (h2 : 2 ≤ s.camera_zoom) (h50 : s.camera_zoom ≤ 50) :
    2 ≤ (applyServerCalls s calls).camera_zoom ∧
      (applyServerCalls s calls).camera_zoom ≤ 50 := by
  induction calls generalizing s with
  | nil => exact ⟨h2, h50⟩
  | cons c rest ih =>
    have hz := camera_zoom_update_server_input s c.theta c.phi c.lock_on c.zoom_in
    apply ih
    · rw [hz]
      split_ifs with h h' <;> first | exact h2 | exact h'.1
    · rw [hz]
      split_ifs with h h' <;> first | exact h50 | exact h'.2

theorem applyServerCalls_server_write (calls : List ServerCall) (s : State) :
    (applyServerCalls s calls).server_write = s.server_write := by
  induction calls generalizing s with
  | nil => rfl
  | cons c rest ih =>
    rw [applyServerCalls, List.foldl_cons, ← applyServerCalls, ih,
      server_write_update_server_input]

/-- C7: the camera zoom invariant.  `camera_zoom` starts at 2; after any
sequence of `update_server_input` calls from the initial state it stays in
`[2, 50]`; a further call with `zoom_in` outside `[2, 50]` leaves it exactly
unchanged, and a call with `zoom_in` inside `[2, 50]` sets it to `zoom_in`. -/
theorem camera_zoom_invariant (calls : List ServerCall) (theta phi : ℝ) (lock_on : Bool)
    (zoom_in : ℝ) :
    initState.camera_zoom = 2 ∧
    (2 ≤ (applyServerCalls initState calls).camera_zoom ∧
      (applyServerCalls initState calls).camera_zoom ≤ 50) ∧
    ((zoom_in < 2 ∨ 50 < zoom_in) →
      (update_server_input (applyServerCalls initState calls)
          theta phi lock_on zoom_in).camera_zoom
        = (applyServerCalls initState calls).camera_zoom) ∧
    (2 ≤ zoom_in → zoom_in ≤ 50 →
      (update_server_input (applyServerCalls initState calls)
          theta phi lock_on zoom_in).camera_zoom = zoom_in) := by
  have hw : (applyServerCalls initState calls).server_write = false := by
    rw [applyServerCalls_server_write]
    rfl
  have hz := camera_zoom_update_server_input (applyServerCalls initState calls)
    theta phi lock_on zoom_in
  rw [hw] at hz
  simp only [if_false, Bool.false_eq_true] at hz
  refine ⟨rfl, applyServerCalls_zoom_mem calls initState (by norm_num [initState])
    (by norm_num [initState]), ?_, ?_⟩
  · intro hout
    rw [hz, if_neg]
    rintro ⟨hl, hr⟩
    rcases hout with h | h
    · exact absurd hl (not_le.mpr h)
    · exact absurd hr (not_le.mpr h)
  · intro hl hr
    rw [hz, if_pos ⟨hl, hr⟩]

/-- C7 witness: concrete evaluation of the invariant theorem after the single
publish `update_server_input(5, 0, false, 7)`: the zoom is in range, a zoom of
100 is ignored and a zoom of 30 is stored. -/
theorem camera_zoom_invariant_witness :
    2 ≤ (applyServerCalls initState [⟨5, 0, false, 7⟩]).camera_zoom ∧
    (update_server_input (applyServerCalls initState [⟨5, 0, false, 7⟩])
        0 0 false 100).camera_zoom
      = (applyServerCalls initState [⟨5, 0, false, 7⟩]).camera_zoom ∧
    (update_server_input (applyServerCalls initState [⟨5, 0, false, 7⟩])
        0 0 false 30).camera_zoom = 30 :=
  ⟨(camera_zoom_invariant [⟨5, 0, false, 7⟩] 0 0 false 100).2.1.1,
   (camera_zoom_invariant [⟨5, 0, false, 7⟩] 0 0 false 100).2.2.1
     (Or.inr (by norm_num)),
   (camera_zoom_invariant [⟨5, 0, false, 7⟩] 0 0 false 30).2.2.2
     (by norm_num) (by norm_num)⟩

/-- C3 counterexample: a publish made while the `server_write` flag is clear
but with `lock_on = true` does not store the clamped theta at all: from a
state holding `theta_in = 5`, `update_server_input(theta = 50, phi = 0,
lock_on = true, zoom_in = 2)` leaves `theta_in = 5`, while the claim (theta
argument in `[0, 90)`, so stored unchanged "regardless of the other
arguments") demands 50. -/
theorem theta_clamp_lock_on_counterexample :
    (update_server_input { initState with theta_in := 5 } 50 0 true 2).theta_in = 5 ∧
      (5 : ℝ) ≠ 50 := by
  constructor
  · norm_num [update_server_input, initState]
  · norm_num

/-- C3 (amended): for every `update_server_input` call made while the
`server_write` flag is clear and whose `lock_on` argument is false, the stored
`theta_in` is the clamp of the theta argument: 89 when `theta >= 90`, 0 when
`theta < 0`, the argument itself otherwise — regardless of the `phi` and
`zoom_in` arguments. -/
theorem theta_clamped_on_direct_publish (s : State) (theta phi zoom_in : ℝ)
    (h : s.server_write = false) :
    (update_server_input s theta phi false zoom_in).theta_in =
      if 90 ≤ theta then 89 else if theta < 0 then 0 else theta := by
  unfold update_server_input
  rw [h]
  by_cases h90 : (90:ℝ) ≤ theta
  · simp only [if_pos h90]
    simp
    split_ifs <;> rfl
  · by_cases hneg : theta < 0
    · simp only [if_neg h90, if_pos hneg]
      simp
      split_ifs <;> rfl
    · simp only [if_neg h90, if_neg hneg]
      simp
      split_ifs <;> rfl

/-- C3 witness: evaluating the amended clamping theorem at the initial state:
theta = -5 stores 0, theta = 95 stores 89, theta = 42 stores 42. -/
theorem theta_clamped_on_direct_publish_witness :
    (update_server_input initState (-5) 7 false 100).theta_in = 0 ∧
    (update_server_input initState 95 7 false 100).theta_in = 89 ∧
    (update_server_input initState 42 7 false 100).theta_in = 42 := by
  refine ⟨?_, ?_, ?_⟩
  · have h := theta_clamped_on_direct_publish initState (-5) 7 100 rfl
    rwa [if_neg (by norm_num), if_pos (by norm_num)] at h
  · have h := theta_clamped_on_direct_publish initState 95 7 100 rfl
    rwa [if_pos (by norm_num)] at h
  · have h := theta_clamped_on_direct_publish initState 42 7 100 rfl
    rwa [if_neg (by norm_num), if_neg (by norm_num)] at h

/-- C4: the code accepts a zero height rather than ignoring it.  The guard in
`update_autopilot_input` is `height >= 0`, so a call with `height = 0` from
the initial state (stored height 1) overwrites `d_height_in` with 0 — the
value the claim (and section 7 of the spec) says must be rejected, and the
value that `coordinate_to_point` later uses as a division denominator. -/
theorem zero_height_accepted_by_code :
    initState.d_height_in = 1 ∧
      (update_autopilot_input initState 0 0 0 0 0 0).d_height_in = 0 := by
  constructor
  · rfl
  · norm_num [update_autopilot_input, initState]

/-- C9: frame effect of a rejected height.  A call to
`update_autopilot_input` made while the `autopilot_write` flag is clear and
whose height argument is negative still updates the stored roll, pitch and
yaw (converted to degrees by `rad2deg`) and the stored coordinate from the
call's arguments; only the height field keeps its previous value. -/
theorem rejected_height_frame_effect (s : State) (roll yaw pitch height lon lat : ℝ)
    (hw : s.autopilot_write = false) (hh : height < 0) :
    (update_autopilot_input s roll yaw pitch height lon lat).d_roll_in = rad2deg roll ∧
    (update_autopilot_input s roll yaw pitch height lon lat).d_pitch_in = rad2deg pitch ∧
    (update_autopilot_input s roll yaw pitch height lon lat).d_yaw_in = rad2deg yaw ∧
    (update_autopilot_input s roll yaw pitch height lon lat).d_coordinate_in = (lon, lat) ∧
    (update_autopilot_input s roll yaw pitch height lon lat).d_height_in = s.d_height_in := by
  unfold update_autopilot_input
  rw [hw]
  simp [if_neg (not_le.mpr hh)]

/-- C9 witness: concrete evaluation of the frame-effect theorem at the
initial state with a height of -4. -/
theorem rejected_height_frame_effect_witness :
    (update_autopilot_input initState 1 2 3 (-4) 5 6).d_roll_in = rad2deg 1 ∧
    (update_autopilot_input initState 1 2 3 (-4) 5 6).d_pitch_in = rad2deg 3 ∧
    (update_autopilot_input initState 1 2 3 (-4) 5 6).d_yaw_in = rad2deg 2 ∧
    (update_autopilot_input initState 1 2 3 (-4) 5 6).d_coordinate_in = (5, 6) ∧
    (update_autopilot_input initState 1 2 3 (-4) 5 6).d_height_in = initState.d_height_in :=
  rejected_height_frame_effect initState 1 2 3 (-4) 5 6 rfl (by norm_num)

/-- C8: degenerate bearing.  For every origin coordinate and positive height,
`coordinate_to_point(origin, origin, height)` returns `(0, 0)`: both planar
offsets vanish, the guarded `atan2(0, 0)` case is replaced by 0, and the
elevation `arctan(0 / height)` is 0. -/
theorem degenerate_bearing_zero (lon lat height : ℝ) (_h : 0 < height) :
    coordinate_to_point (lon, lat) (lon, lat) height = (0, 0) := by
  unfold coordinate_to_point
  simp [deg2rad, rad2deg, mod360, Real.tan_zero, Real.arctan_zero]

/-- C8 witness: the degenerate-bearing theorem evaluated at the coordinate
(3, 4) and height 1. -/
theorem degenerate_bearing_zero_witness :
    coordinate_to_point (3, 4) (3, 4) 1 = (0, 0) :=
  degenerate_bearing_zero 3 4 1 (by norm_num)

/-! Lemmas about the loop stages, for the output-derivation and lock-on
claims. -/

theorem aim_stage_outputs (t : State) :
    (aim_stage t).camera_pitch = Real.sin (deg2rad (aim_stage t).theta_final) ∧
    (aim_stage t).camera_yaw = (aim_stage t).phi_final ∧
    (aim_stage t).camera_roll =
      -(aim_stage t).d_roll * Real.cos (deg2rad (aim_stage t).phi_final)
        - (aim_stage t).d_pitch * Real.sin (deg2rad (aim_stage t).phi_final) := by
  unfold aim_stage
  split_ifs <;> simp

/-- C6: output derivation.  On every loop cycle, writing `theta_final`,
`phi_final` for the compensated body-frame angles and `d_roll`, `d_pitch` for
the attitude sample the cycle used, the emitted command satisfies
`camera_pitch = sin(deg2rad theta_final)`, `camera_yaw = phi_final` and
`camera_roll = -d_roll * cos(deg2rad phi_final) - d_pitch * sin(deg2rad
phi_final)`. -/
theorem output_derivation_per_cycle (s : State) :
    (cycle s).camera_pitch = Real.sin (deg2rad (cycle s).theta_final) ∧
    (cycle s).camera_yaw = (cycle s).phi_final ∧
    (cycle s).camera_roll =
      -(cycle s).d_roll * Real.cos (deg2rad (cycle s).phi_final)
        - (cycle s).d_pitch * Real.sin (deg2rad (cycle s).phi_final) := by
  unfold cycle
  exact aim_stage_outputs _

theorem snapshot_server_clear (s : State) (h : s.server_write = false) :
    snapshot_server s = { s with lock_on := s.lock_on_in, theta := s.theta_in,
                                 phi := s.phi_in, server_write := false } := by
  unfold snapshot_server
  rw [h]
  simp

theorem snapshot_autopilot_clear (s : State) (h : s.autopilot_write = false) :
    snapshot_autopilot s =
      { s with d_roll := s.d_roll_in, d_pitch := s.d_pitch_in, d_yaw := s.d_yaw_in,
               d_height := s.d_height_in, d_coordinate := s.d_coordinate_in,
               autopilot_write := false } := by
  unfold snapshot_autopilot
  rw [h]
  simp

/-- Full characterization of one cycle's effect on the lock-on bookkeeping
fields, when both write flags are clear on entry: the capture branch runs
exactly when the published `lock_on` is up and `init_lock_on` is pending, it
stores the target computed from this cycle's snapshot of the published
inputs, and `init_lock_on` is consumed. -/
theorem cycle_char (t : State) (hs : t.server_write = false)
    (ha : t.autopilot_write = false) :
    (cycle t).captures =
      (if t.lock_on_in = true ∧ t.init_lock_on = true then t.captures + 1
       else t.captures) ∧
    (cycle t).aim_coordinate =
      (if t.lock_on_in = true ∧ t.init_lock_on = true then
        point_to_coordinate t.theta_in t.phi_in t.d_height_in t.d_coordinate_in
       else t.aim_coordinate) ∧
    (cycle t).init_lock_on = (if t.lock_on_in = true then false else t.init_lock_on) ∧
    (cycle t).lock_on_in = t.lock_on_in ∧
    (cycle t).server_write = false ∧
    (cycle t).autopilot_write = false ∧
    (cycle t).theta_in = t.theta_in ∧
    (cycle t).phi_in = t.phi_in ∧
    (cycle t).d_height_in = t.d_height_in ∧
    (cycle t).d_coordinate_in = t.d_coordinate_in := by
  unfold cycle
  rw [snapshot_server_clear t hs, snapshot_autopilot_clear _ (by simpa using ha)]
  by_cases hl : t.lock_on_in = true
  · by_cases hi : t.init_lock_on = true
    · unfold aim_stage
      simp [hl, hi]
    · unfold aim_stage
      simp [hl, hi]
  · unfold aim_stage
    simp [hl]

theorem update_server_input_lock_true (s : State) (theta phi zoom_in : ℝ)
    (h : s.server_write = false) (hl : s.lock_on_in = false) :
    (update_server_input s theta phi true zoom_in).lock_on_in = true ∧
    (update_server_input s theta phi true zoom_in).init_lock_on = true ∧
    (update_server_input s theta phi true zoom_in).server_write = false ∧
    (update_server_input s theta phi true zoom_in).autopilot_write = s.autopilot_write ∧
    (update_server_input s theta phi true zoom_in).theta_in = s.theta_in ∧
    (update_server_input s theta phi true zoom_in).phi_in = s.phi_in ∧
    (update_server_input s theta phi true zoom_in).d_height_in = s.d_height_in ∧
    (update_server_input s theta phi true zoom_in).d_coordinate_in = s.d_coordinate_in ∧
    (update_server_input s theta phi true zoom_in).captures = s.captures ∧
    (update_server_input s theta phi true zoom_in).aim_coordinate = s.aim_coordinate := by
  unfold update_server_input
  rw [h]
  simp [hl]
  split_ifs <;> simp

theorem update_server_input_lock_false_fields (s : State) (theta phi zoom_in : ℝ)
    (h : s.server_write = false) :
    (update_server_input s theta phi false zoom_in).lock_on_in = false ∧
    (update_server_input s theta phi false zoom_in).init_lock_on = s.init_lock_on ∧
    (update_server_input s theta phi false zoom_in).server_write = false ∧
    (update_server_input s theta phi false zoom_in).autopilot_write = s.autopilot_write ∧
    (update_server_input s theta phi false zoom_in).captures = s.captures ∧
    (update_server_input s theta phi false zoom_in).aim_coordinate = s.aim_coordinate := by
  unfold update_server_input
  rw [h]
  simp
  split_ifs <;> simp

/-- Cycles of a Locked session after its capture: while both flags are clear,
the published `lock_on` stays up and no capture is pending, any number of
cycles leaves the capture count, the captured coordinate and the session
bookkeeping unchanged. -/
theorem cycle_iterate_locked_steady (n : ℕ) :
    ∀ t : State, t.server_write = false → t.autopilot_write = false →
      t.lock_on_in = true → t.init_lock_on = false →
      (cycle^[n] t).captures = t.captures ∧
      (cycle^[n] t).aim_coordinate = t.aim_coordinate ∧
      (cycle^[n] t).server_write = false ∧
      (cycle^[n] t).autopilot_write = false ∧
      (cycle^[n] t).lock_on_in = true ∧
      (cycle^[n] t).init_lock_on = false := by
  induction n with
  | zero => exact fun t hs ha hl hi => ⟨rfl, rfl, hs, ha, hl, hi⟩
  | succ n ih =>
    intro t hs ha hl hi
    rw [Function.iterate_succ_apply]
    obtain ⟨hc, haim, hil, hli, hsw, haw, -, -, -, -⟩ := cycle_char t hs ha
    rw [hl, hi] at hc haim hil
    simp only [and_false, if_false] at hc haim
    simp only [if_pos rfl] at hil
    obtain ⟨ihc, ihaim, ihs, iha, ihl, ihi⟩ := ih (cycle t) hsw haw (hli.trans hl) hil
    exact ⟨ihc.trans hc, ihaim.trans haim, ihs, iha, ihl, ihi⟩

/-- Cycles in Direct mode: while both flags are clear and the published
`lock_on` is down, cycles change neither the capture count, the stored target,
nor `init_lock_on`. -/
theorem cycle_iterate_direct (m : ℕ) :
    ∀ t : State, t.server_write = false → t.autopilot_write = false →
      t.lock_on_in = false →
      (cycle^[m] t).captures = t.captures ∧
      (cycle^[m] t).aim_coordinate = t.aim_coordinate ∧
      (cycle^[m] t).server_write = false ∧
      (cycle^[m] t).autopilot_write = false ∧
      (cycle^[m] t).lock_on_in = false ∧
      (cycle^[m] t).init_lock_on = t.init_lock_on := by
  induction m with
  | zero => exact fun t hs ha hl => ⟨rfl, rfl, hs, ha, hl, rfl⟩
  | succ m ih =>
    intro t hs ha hl
    rw [Function.iterate_succ_apply]
    obtain ⟨hc, haim, hil, hli, hsw, haw, -, -, -, -⟩ := cycle_char t hs ha
    rw [hl] at hc haim hil hli
    simp only [Bool.false_eq_true, false_and, if_false] at hc haim hil
    obtain ⟨ihc, ihaim, ihs, iha, ihl, ihi⟩ := ih (cycle t) hsw haw hli
    exact ⟨ihc.trans hc, ihaim.trans haim, ihs, iha, ihl, ihi.trans hil⟩

/-- C2: the target capture is edge-triggered exactly once per Locked session.
From a state with both write flags clear, `lock_on_in` down and no pending
capture: after publishing `lock_on = true` and running `n + 1` cycles, the
ghost capture counter has increased by exactly one and `aim_coordinate` holds
the target computed by `point_to_coordinate` from the capturing cycle's
published theta, phi, height and vehicle coordinate (so every later cycle of
the session leaves it unchanged); and continuing with a `lock_on = false`
publish, `m` cycles, a `lock_on = true` publish and `k + 1` further cycles
yields exactly two captures in total. -/
theorem lock_on_edge_capture (s : State)
    (theta phi zoom_in theta2 phi2 zoom2 theta3 phi3 zoom3 : ℝ) (n m k : ℕ)
    (hs : s.server_write = false) (ha : s.autopilot_write = false)
    (hl : s.lock_on_in = false) (_hi : s.init_lock_on = false) :
    ((cycle^[n + 1] (update_server_input s theta phi true zoom_in)).captures
        = s.captures + 1 ∧
      (cycle^[n + 1] (update_server_input s theta phi true zoom_in)).aim_coordinate
        = point_to_coordinate s.theta_in s.phi_in s.d_height_in s.d_coordinate_in) ∧
    (cycle^[k + 1] (update_server_input
        (cycle^[m] (update_server_input
          (cycle^[n + 1] (update_server_input s theta phi true zoom_in))
          theta2 phi2 false zoom2))
        theta3 phi3 true zoom3)).captures = s.captures + 2 := by
  -- Phase A: rising edge publish, then the capturing cycle, then n steady cycles.
  obtain ⟨p1l, p1i, p1s, p1a, p1t, p1p, p1h, p1c, p1cap, p1aim⟩ :=
    update_server_input_lock_true s theta phi zoom_in hs hl
  set s1 := update_server_input s theta phi true zoom_in with hs1
  rw [ha] at p1a
  obtain ⟨q1cap, q1aim, q1il, q1li, q1s, q1a, -, -, -, -⟩ := cycle_char s1 p1s p1a
  rw [p1l, p1i] at q1cap q1aim q1il
  simp only [and_self, if_pos, if_true] at q1cap q1aim q1il
  rw [p1cap] at q1cap
  rw [p1t, p1p, p1h, p1c] at q1aim
  rw [Function.iterate_succ_apply]
  obtain ⟨hAcap, hAaim, hAs, hAa, hAl, hAi⟩ :=
    cycle_iterate_locked_steady n (cycle s1) q1s q1a (q1li.trans p1l) q1il
  refine ⟨⟨hAcap.trans q1cap, hAaim.trans q1aim⟩, ?_⟩
  -- Phase B: drop the lock, m direct cycles, raise it again, k+1 cycles.
  obtain ⟨p2l, p2i, p2s, p2a, p2cap, p2aim⟩ :=
    update_server_input_lock_false_fields (cycle^[n] (cycle s1)) theta2 phi2 zoom2 hAs
  rw [hAa] at p2a
  set s2 := update_server_input (cycle^[n] (cycle s1)) theta2 phi2 false zoom2 with hs2
  have hB := cycle_iterate_direct m s2 p2s p2a p2l
  obtain ⟨hBcap, hBaim, hBs, hBa, hBl, hBi⟩ := hB
  obtain ⟨p3l, p3i, p3s, p3a, p3t, p3p, p3h, p3c, p3cap, p3aim⟩ :=
    update_server_input_lock_true (cycle^[m] s2) theta3 phi3 zoom3 hBs hBl
  rw [hBa] at p3a
  set s3 := update_server_input (cycle^[m] s2) theta3 phi3 true zoom3 with hs3
  obtain ⟨q3cap, q3aim, q3il, q3li, q3s, q3a, -, -, -, -⟩ := cycle_char s3 p3s p3a
  rw [p3l, p3i] at q3cap q3il
  simp only [and_self, if_pos, if_true] at q3cap q3il
  have hC := cycle_iterate_locked_steady k (cycle s3) q3s q3a (q3li.trans p3l) q3il
  rw [Function.iterate_succ_apply]
  rw [hC.1, q3cap, p3cap, hBcap, p2cap, hAcap, q1cap]

/-- C2 witness: the edge-capture theorem evaluated from the initial state with
one cycle per locked phase and no intermediate direct cycles: one capture
after the first publish-and-cycle, two captures after the
true-false-true publish sequence. -/
theorem lock_on_edge_capture_witness :
    ((cycle^[1] (update_server_input initState 30 40 true 2)).captures
        = initState.captures + 1 ∧
      (cycle^[1] (update_server_input initState 30 40 true 2)).aim_coordinate
        = point_to_coordinate initState.theta_in initState.phi_in initState.d_height_in
            initState.d_coordinate_in) ∧
    (cycle^[1] (update_server_input
        (cycle^[0] (update_server_input
          (cycle^[1] (update_server_input initState 30 40 true 2)) 0 0 false 2))
        10 20 true 2)).captures = initState.captures + 2 :=
  lock_on_edge_capture initState 30 40 2 0 0 2 10 20 2 0 0 0 rfl rfl rfl rfl

/-! Numeric facts about the degree constant and shared rotation lemmas. -/

theorem DEG_IN_RED_pos : (0:ℝ) < DEG_IN_RED := by norm_num [DEG_IN_RED]

theorem pi_key : (3.14159265 : ℝ) < Real.pi :=
  lt_trans (by norm_num) Real.pi_gt_d20

theorem rad2deg_deg2rad (x : ℝ) : rad2deg (deg2rad x) = x := by
  unfold rad2deg deg2rad
  exact mul_div_cancel_left₀ x (by norm_num [DEG_IN_RED])

theorem deg2rad_rad2deg (x : ℝ) : deg2rad (rad2deg x) = x := by
  unfold rad2deg deg2rad
  rw [mul_comm]
  exact div_mul_cancel₀ x (by norm_num [DEG_IN_RED])

theorem atan2_sin_cos_sub_two_pi {t : ℝ} (h1 : Real.pi < t) (h2 : t < 2 * Real.pi) :
    atan2 (Real.sin t) (Real.cos t) = t - 2 * Real.pi := by
  have hs : Real.sin t = Real.sin (t - 2 * Real.pi) := (Real.sin_sub_two_pi t).symm
  have hc : Real.cos t = Real.cos (t - 2 * Real.pi) := (Real.cos_sub_two_pi t).symm
  rw [hs, hc]
  have hpi : (0:ℝ) < Real.pi := Real.pi_pos
  exact atan2_sin_cos (by linarith) (by linarith)

theorem Mat3_transpose_idMat : Mat3.idMat.transpose = Mat3.idMat := rfl

theorem Mat3_idMat_mulVec (v : Vec3) : Mat3.idMat.mulVec v = v := by
  simp [Mat3.mulVec, Mat3.idMat]

theorem rotation_matrix_zero : rotation_matrix 0 0 0 = Mat3.idMat := by
  unfold rotation_matrix
  simp [deg2rad, Mat3.mul, Mat3.idMat]

theorem spherical_angular_roundtrip (theta phi : ℝ) (h0 : 0 < theta) (h1 : theta < 90)
    (hq0 : 0 ≤ phi) (hq1 : phi ≤ 180) :
    spherical_to_angular (angular_to_spherical theta phi) = (theta, phi) := by
  have hc : (0:ℝ) < DEG_IN_RED := DEG_IN_RED_pos
  have hθ0 : 0 < deg2rad theta := by
    unfold deg2rad
    exact mul_pos hc h0
  have hθhalf : deg2rad theta < Real.pi / 2 := by
    have := pi_key
    unfold deg2rad DEG_IN_RED at *
    norm_num at *
    linarith
  have hθπ : deg2rad theta < Real.pi := by
    have := Real.pi_pos
    linarith
  have hsin : 0 < Real.sin (deg2rad theta) :=
    Real.sin_pos_of_pos_of_lt_pi hθ0 hθπ
  have hφ0 : 0 ≤ deg2rad phi := by
    unfold deg2rad
    exact mul_nonneg hc.le hq0
  have hφπ : deg2rad phi ≤ Real.pi := by
    have := pi_key
    unfold deg2rad DEG_IN_RED at *
    norm_num at *
    linarith
  unfold spherical_to_angular angular_to_spherical
  rw [Prod.ext_iff]
  constructor
  · show rad2deg (Real.arccos (- -Real.cos (deg2rad theta))) = theta
    rw [neg_neg, Real.arccos_cos hθ0.le hθπ.le, rad2deg_deg2rad]
  · show mod360 (rad2deg (atan2 (Real.sin (deg2rad theta) * Real.sin (deg2rad phi))
      (Real.sin (deg2rad theta) * Real.cos (deg2rad phi)))) = phi
    rw [atan2_pos_smul hsin, atan2_sin_cos (by linarith) hφπ, rad2deg_deg2rad]
    exact mod360_eq_self hq0 (by linarith)

theorem adjust_aim_level_theta_zero : adjust_aim initState 0 90 = (0, 0) := by
  unfold adjust_aim
  have hM : rotation_matrix initState.d_roll initState.d_yaw initState.d_pitch
      = Mat3.idMat := rotation_matrix_zero
  rw [hM, Mat3_transpose_idMat]
  simp only [Mat3_idMat_mulVec]
  unfold spherical_to_angular angular_to_spherical
  norm_num [deg2rad, rad2deg, mod360, atan2_zero_zero, Real.arccos_one]

theorem adjust_aim_level_phi_270 : adjust_aim initState 30 270 ≠ ((30:ℝ), (270:ℝ)) := by
  have hc : (0:ℝ) < DEG_IN_RED := DEG_IN_RED_pos
  have hsin : 0 < Real.sin (deg2rad 30) := by
    apply Real.sin_pos_of_pos_of_lt_pi
    · unfold deg2rad
      norm_num [DEG_IN_RED]
    · have := pi_key
      unfold deg2rad DEG_IN_RED at *
      norm_num at *
      linarith
  have hπlt : Real.pi < deg2rad 270 := by
    have := Real.pi_lt_d2
    unfold deg2rad DEG_IN_RED
    norm_num
    linarith
  have hlt2π : deg2rad 270 < 2 * Real.pi := by
    have := pi_key
    unfold deg2rad DEG_IN_RED
    norm_num
    linarith
  have hup : (270:ℝ) - 2 * Real.pi / DEG_IN_RED < 0 := by
    have h1 : (270:ℝ) * DEG_IN_RED < 2 * Real.pi := by
      have := pi_key
      unfold DEG_IN_RED at *
      norm_num at *
      linarith
    have h2 : (270:ℝ) < 2 * Real.pi / DEG_IN_RED := (lt_div_iff₀ hc).mpr h1
    linarith
  have hlow : (-360:ℝ) ≤ 270 - 2 * Real.pi / DEG_IN_RED := by
    have h1 : 2 * Real.pi ≤ (630:ℝ) * DEG_IN_RED := by
      have := Real.pi_lt_d2
      unfold DEG_IN_RED at *
      norm_num at *
      linarith
    have h2 : 2 * Real.pi / DEG_IN_RED ≤ (630:ℝ) := (div_le_iff₀ hc).mpr (by linarith)
    linarith
  have hval : (adjust_aim initState 30 270).2 = 270 - 2 * Real.pi / DEG_IN_RED + 360 := by
    unfold adjust_aim
    have hM : rotation_matrix initState.d_roll initState.d_yaw initState.d_pitch
        = Mat3.idMat := rotation_matrix_zero
    rw [hM, Mat3_transpose_idMat]
    simp only [Mat3_idMat_mulVec]
    unfold spherical_to_angular angular_to_spherical
    show mod360 (rad2deg (atan2 (Real.sin (deg2rad 30) * Real.sin (deg2rad 270))
      (Real.sin (deg2rad 30) * Real.cos (deg2rad 270)))) = _
    rw [atan2_pos_smul hsin, atan2_sin_cos_sub_two_pi hπlt hlt2π]
    have hrd : rad2deg (deg2rad 270 - 2 * Real.pi)
        = 270 - 2 * Real.pi / DEG_IN_RED := by
      unfold rad2deg
      rw [sub_div]
      rw [show deg2rad (270:ℝ) / DEG_IN_RED = 270 from
        mul_div_cancel_left₀ _ (ne_of_gt hc)]
    rw [hrd, mod360_of_neg hlow hup]
  intro hEq
  have h2 : (adjust_aim initState 30 270).2 = 270 := by rw [hEq]
  rw [hval] at h2
  have h3 : 2 * Real.pi / DEG_IN_RED = 360 := by linarith
  have h4 : 2 * Real.pi = 360 * DEG_IN_RED := (div_eq_iff (ne_of_gt hc)).mp h3
  have h5 := pi_key
  unfold DEG_IN_RED at h4
  norm_num at h4
  linarith

/-- C1 (amended): attitude compensation with a level vehicle.  When the
snapshot attitude is roll = yaw = pitch = 0, `rotation_matrix(0, 0, 0)` is the
3x3 identity matrix, and for every aim with theta in (0, 90) and phi in
[0, 180], `adjust_aim(theta, phi)` returns exactly `(theta, phi)`.  (At
theta = 0 the bearing collapses to the guarded `atan2(0, 0) = 0`, and for phi
outside [0, 180] the returned phi is only approximately phi mod 360, because
the source's degree constant is not exactly pi/180 — see the
counterexample.) -/
theorem level_attitude_identity (s : State) (theta phi : ℝ)
    (hr : s.d_roll = 0) (hy : s.d_yaw = 0) (hp : s.d_pitch = 0)
    (h0 : 0 < theta) (h1 : theta < 90) (hq0 : 0 ≤ phi) (hq1 : phi ≤ 180) :
    rotation_matrix s.d_roll s.d_yaw s.d_pitch = Mat3.idMat ∧
    adjust_aim s theta phi = (theta, phi) := by
  constructor
  · rw [hr, hy, hp]
    exact rotation_matrix_zero
  · unfold adjust_aim
    rw [hr, hy, hp, rotation_matrix_zero, Mat3_transpose_idMat]
    simp only [Mat3_idMat_mulVec]
    exact spherical_angular_roundtrip theta phi h0 h1 hq0 hq1

/-- C1 witness: the level-attitude identity evaluated at the initial state
(level attitude) with theta = 45, phi = 90. -/
theorem level_attitude_identity_witness :
    rotation_matrix initState.d_roll initState.d_yaw initState.d_pitch = Mat3.idMat ∧
    adjust_aim initState 45 90 = (45, 90) :=
  level_attitude_identity initState 45 90 rfl rfl rfl (by norm_num) (by norm_num)
    (by norm_num) (by norm_num)

/-- C1 counterexample: with a level vehicle (the initial state), the claimed
identity `adjust_aim(theta, phi) = (theta, phi)` fails at theta = 0 with
phi = 90 (the output phi is 0, from the guarded `atan2(0, 0)` case), and at
theta = 30 with phi = 270 (the output phi differs from 270 because the
source's degree constant `DEG_IN_RED` is not exactly pi/180, so the `% 360`
wrap-around is not exact). -/
theorem level_attitude_identity_counterexample :
    adjust_aim initState 0 90 ≠ ((0:ℝ), (90:ℝ)) ∧
    adjust_aim initState 30 270 ≠ ((30:ℝ), (270:ℝ)) ∧
    initState.d_roll = 0 ∧ initState.d_yaw = 0 ∧ initState.d_pitch = 0 := by
  refine ⟨?_, adjust_aim_level_phi_270, rfl, rfl, rfl⟩
  rw [adjust_aim_level_theta_zero]
  intro h
  have h2 := congrArg Prod.snd h
  norm_num at h2

theorem rotation_matrix_pitch (p : ℝ) : rotation_matrix 0 0 p =
    { a11 := 1, a12 := 0, a13 := 0,
      a21 := 0, a22 := Real.cos (deg2rad p), a23 := -Real.sin (deg2rad p),
      a31 := 0, a32 := Real.sin (deg2rad p), a33 := Real.cos (deg2rad p) } := by
  unfold rotation_matrix
  simp [deg2rad, Mat3.mul]

/-- C10: unclamped compensated theta.  There exist an attitude (roll, yaw,
pitch) and a valid input aim with theta in [0, 90) for which `adjust_aim`
returns a theta strictly greater than 90: `spherical_to_angular` recovers
theta as `arccos(-z)`, whose range is [0, 180] degrees, and `adjust_aim`
applies no output clamping (witness: pitch = 120 degrees, aim straight down,
giving theta_final = 120). -/
theorem compensated_theta_exceeds_ninety :
    ∃ roll yaw pitch theta phi : ℝ, 0 ≤ theta ∧ theta < 90 ∧
      90 < (adjust_aim
        { initState with d_roll := roll, d_yaw := yaw, d_pitch := pitch } theta phi).1 := by
  refine ⟨0, 0, 120, 0, 0, le_refl 0, by norm_num, ?_⟩
  have hval : (adjust_aim
      { initState with d_roll := (0:ℝ), d_yaw := (0:ℝ), d_pitch := (120:ℝ) } 0 0).1
      = rad2deg (Real.arccos (Real.cos (deg2rad 120))) := by
    unfold adjust_aim
    rw [show ({ initState with d_roll := (0:ℝ), d_yaw := (0:ℝ), d_pitch := (120:ℝ) }
          : State).d_roll = 0 from rfl,
        show ({ initState with d_roll := (0:ℝ), d_yaw := (0:ℝ), d_pitch := (120:ℝ) }
          : State).d_yaw = 0 from rfl,
        show ({ initState with d_roll := (0:ℝ), d_yaw := (0:ℝ), d_pitch := (120:ℝ) }
          : State).d_pitch = 120 from rfl,
        rotation_matrix_pitch 120]
    unfold angular_to_spherical spherical_to_angular Mat3.transpose Mat3.mulVec
    norm_num [deg2rad]
  rw [hval]
  have harc : Real.arccos (Real.cos (deg2rad 120)) = deg2rad 120 := by
    apply Real.arccos_cos
    · unfold deg2rad
      norm_num [DEG_IN_RED]
    · have := pi_key
      unfold deg2rad DEG_IN_RED at *
      norm_num at *
      linarith
  rw [harc, rad2deg_deg2rad]
  norm_num

theorem deg2rad_rad2deg_add_sub (a u : ℝ) :
    deg2rad (rad2deg (deg2rad a + u) - a) = u := by
  unfold deg2rad rad2deg
  have hc : DEG_IN_RED ≠ 0 := ne_of_gt DEG_IN_RED_pos
  field_simp

theorem coordinate_to_point_eval (lon lat a b h : ℝ) :
    coordinate_to_point (lon, lat) (a, b) h =
      (rad2deg (Real.arctan (Real.sqrt
          ((Real.tan (deg2rad (a - lon)) * earth_radius_at_lat lat) ^ 2
            + (Real.tan (deg2rad (b - lat)) * earth_radius_at_lat lat) ^ 2) / h)),
       mod360 (rad2deg (if Real.tan (deg2rad (a - lon)) * earth_radius_at_lat lat = 0
            ∧ Real.tan (deg2rad (b - lat)) * earth_radius_at_lat lat = 0 then 0
          else atan2 (Real.tan (deg2rad (a - lon)) * earth_radius_at_lat lat)
            (Real.tan (deg2rad (b - lat)) * earth_radius_at_lat lat)))) := rfl

theorem point_to_coordinate_eval (theta phi h lon lat : ℝ) :
    point_to_coordinate theta phi h (lon, lat) =
      (rad2deg (deg2rad lon + Real.arctan (h * Real.tan (deg2rad theta)
          * Real.sin (deg2rad phi) / earth_radius_at_lat lat)),
       rad2deg (deg2rad lat + Real.arctan (h * Real.tan (deg2rad theta)
          * Real.cos (deg2rad phi) / earth_radius_at_lat lat))) := rfl

/-- C5: geodesic round trip.  For every origin coordinate with latitude in
the valid range [-90, 90], every height > 0, theta in (0, 90) and phi in
[0, 360), `coordinate_to_point(origin, point_to_coordinate(theta, phi,
height, origin), height)` returns theta exactly and phi within 1e-6 degrees
of phi mod 360 (the residual comes only from the source's degree constant
not being exactly pi/180). -/
theorem geodesic_round_trip (lon lat h theta phi : ℝ)
    (hh : 0 < h) (h0 : 0 < theta) (h1 : theta < 90) (hq0 : 0 ≤ phi) (hq1 : phi < 360)
    (hlat : |lat| ≤ 90) :
    (coordinate_to_point (lon, lat) (point_to_coordinate theta phi h (lon, lat)) h).1
      = theta ∧
    |(coordinate_to_point (lon, lat) (point_to_coordinate theta phi h (lon, lat)) h).2
      - phi| ≤ 1 / 1000000 := by
  have hc : (0:ℝ) < DEG_IN_RED := DEG_IN_RED_pos
  obtain ⟨hl1, hl2⟩ := abs_le.mp hlat
  have hR : 0 < earth_radius_at_lat lat := by
    unfold earth_radius_at_lat
    have hb : lat / 90 * 21385 ≤ 21385 := by
      rw [div_mul_eq_mul_div, div_le_iff₀ (by norm_num : (0:ℝ) < 90)]
      nlinarith
    linarith
  have hθ0 : 0 < deg2rad theta := by
    unfold deg2rad
    exact mul_pos hc h0
  have hθhalf : deg2rad theta < Real.pi / 2 := by
    have := pi_key
    unfold deg2rad DEG_IN_RED at *
    norm_num at *
    linarith
  have htan : 0 < Real.tan (deg2rad theta) :=
    Real.tan_pos_of_pos_of_lt_pi_div_two hθ0 hθhalf
  have hk : 0 < h * Real.tan (deg2rad theta) := mul_pos hh htan
  rw [point_to_coordinate_eval, coordinate_to_point_eval]
  have hxe : Real.tan (deg2rad (rad2deg (deg2rad lon + Real.arctan (h * Real.tan (deg2rad theta)
        * Real.sin (deg2rad phi) / earth_radius_at_lat lat)) - lon)) * earth_radius_at_lat lat
      = h * Real.tan (deg2rad theta) * Real.sin (deg2rad phi) := by
    rw [deg2rad_rad2deg_add_sub, Real.tan_arctan, div_mul_cancel₀ _ (ne_of_gt hR)]
  have hye : Real.tan (deg2rad (rad2deg (deg2rad lat + Real.arctan (h * Real.tan (deg2rad theta)
        * Real.cos (deg2rad phi) / earth_radius_at_lat lat)) - lat)) * earth_radius_at_lat lat
      = h * Real.tan (deg2rad theta) * Real.cos (deg2rad phi) := by
    rw [deg2rad_rad2deg_add_sub, Real.tan_arctan, div_mul_cancel₀ _ (ne_of_gt hR)]
  rw [hxe, hye]
  have hcond : ¬(h * Real.tan (deg2rad theta) * Real.sin (deg2rad phi) = 0
      ∧ h * Real.tan (deg2rad theta) * Real.cos (deg2rad phi) = 0) := by
    rintro ⟨hx0, hy0⟩
    have hs0 : Real.sin (deg2rad phi) = 0 := by
      rcases mul_eq_zero.mp hx0 with hba | hba
      · exact absurd hba (ne_of_gt hk)
      · exact hba
    have hc0 : Real.cos (deg2rad phi) = 0 := by
      rcases mul_eq_zero.mp hy0 with hba | hba
      · exact absurd hba (ne_of_gt hk)
      · exact hba
    have := Real.sin_sq_add_cos_sq (deg2rad phi)
    rw [hs0, hc0] at this
    norm_num at this
  have hsq : (h * Real.tan (deg2rad theta) * Real.sin (deg2rad phi)) ^ 2
      + (h * Real.tan (deg2rad theta) * Real.cos (deg2rad phi)) ^ 2
      = (h * Real.tan (deg2rad theta)) ^ 2 := by
    have hpyth := Real.sin_sq_add_cos_sq (deg2rad phi)
    nlinarith [hpyth]
  constructor
  · show rad2deg (Real.arctan (Real.sqrt ((h * Real.tan (deg2rad theta)
        * Real.sin (deg2rad phi)) ^ 2 + (h * Real.tan (deg2rad theta)
        * Real.cos (deg2rad phi)) ^ 2) / h)) = theta
    rw [hsq, Real.sqrt_sq hk.le, mul_div_cancel_left₀ _ (ne_of_gt hh),
      Real.arctan_tan (by linarith) hθhalf, rad2deg_deg2rad]
  · show |mod360 (rad2deg (if h * Real.tan (deg2rad theta) * Real.sin (deg2rad phi) = 0
        ∧ h * Real.tan (deg2rad theta) * Real.cos (deg2rad phi) = 0 then 0
        else atan2 (h * Real.tan (deg2rad theta) * Real.sin (deg2rad phi))
          (h * Real.tan (deg2rad theta) * Real.cos (deg2rad phi)))) - phi| ≤ 1 / 1000000
    rw [if_neg hcond, atan2_pos_smul hk]
    have hφ0 : 0 ≤ deg2rad phi := by
      unfold deg2rad
      exact mul_nonneg hc.le hq0
    by_cases hφπ : deg2rad phi ≤ Real.pi
    · rw [atan2_sin_cos (by linarith [Real.pi_pos]) hφπ, rad2deg_deg2rad,
        mod360_eq_self hq0 hq1]
      norm_num
    · push_neg at hφπ
      have hφ2π : deg2rad phi < 2 * Real.pi := by
        have := pi_key
        unfold deg2rad DEG_IN_RED at *
        norm_num at *
        linarith
      rw [atan2_sin_cos_sub_two_pi hφπ hφ2π]
      have hrd : rad2deg (deg2rad phi - 2 * Real.pi)
          = phi - 2 * Real.pi / DEG_IN_RED := by
        unfold rad2deg
        rw [sub_div, show deg2rad phi / DEG_IN_RED = phi from
          mul_div_cancel_left₀ _ (ne_of_gt hc)]
      rw [hrd]
      have hbig : (171:ℝ) < phi := by
        have hππ : Real.pi < DEG_IN_RED * phi := hφπ
        have := Real.pi_gt_three
        unfold DEG_IN_RED at hππ
        norm_num at hππ
        linarith
      have hup : phi - 2 * Real.pi / DEG_IN_RED < 0 := by
        have h1 : phi * DEG_IN_RED < 2 * Real.pi := by
          have h2 : deg2rad phi < 2 * Real.pi := hφ2π
          unfold deg2rad at h2
          linarith [h2]
        have h2 : phi < 2 * Real.pi / DEG_IN_RED := (lt_div_iff₀ hc).mpr h1
        linarith
      have hlow : (-360:ℝ) ≤ phi - 2 * Real.pi / DEG_IN_RED := by
        have hpl : 2 * Real.pi ≤ (361:ℝ) * DEG_IN_RED := by
          have := Real.pi_lt_d2
          unfold DEG_IN_RED
          norm_num
          linarith
        have h2 : 2 * Real.pi / DEG_IN_RED ≤ (361:ℝ) := (div_le_iff₀ hc).mpr hpl
        linarith
      rw [mod360_of_neg hlow hup]
      have hub : 2 * Real.pi / DEG_IN_RED ≤ 360 + 1 / 1000000 := by
        rw [div_le_iff₀ hc]
        have := Real.pi_lt_d20
        unfold DEG_IN_RED
        norm_num
        linarith
      have hlb : 360 - 1 / 1000000 ≤ 2 * Real.pi / DEG_IN_RED := by
        rw [le_div_iff₀ hc]
        have := Real.pi_gt_d20
        unfold DEG_IN_RED
        norm_num
        linarith
      rw [abs_le]
      constructor
      · linarith
      · linarith

/-- C5 witness: the round-trip theorem evaluated at origin (10, 20), height
100, theta = 45, phi = 90. -/
theorem geodesic_round_trip_witness :
    (coordinate_to_point (10, 20) (point_to_coordinate 45 90 100 (10, 20)) 100).1
      = 45 ∧
    |(coordinate_to_point (10, 20) (point_to_coordinate 45 90 100 (10, 20)) 100).2
      - 90| ≤ 1 / 1000000 :=
  geodesic_round_trip 10 20 100 45 90 (by norm_num) (by norm_num) (by norm_num)
    (by norm_num) (by norm_num) (by norm_num)

end ViewController

end
